import Mathlib

/-!
Shallow embedding of `src/synergia-api/server.js`: a small in-memory
event-booking API.  JavaScript numbers that matter here are integers or
`NaN`, modelled by `JSNum`.  Request-body fields are modelled by what the
handlers observe of them: presence (`Option`), truthiness, and the result
of `Number(...)` coercion (`JSVal`).  Each HTTP handler becomes a pure
function from a `ServerState` and a parsed body to a new state and a
result value; the handlers' status codes are recovered by `status`
functions on the result types.
-/

namespace Synergia

/-- A JavaScript number as used by the server: an integer or `NaN`.
(All numeric literals in the program and its inputs of interest are
integers; `NaN` arises from `Number(...)` on non-numeric input.) -/
inductive JSNum where
  | num (v : Int)
  | nan
deriving DecidableEq, Repr

/-- JavaScript `+` on numbers: `NaN` is absorbing. -/
def JSNum.add : JSNum → JSNum → JSNum
  | .num a, .num b => .num (a + b)
  | _, _ => .nan

/-- JavaScript `>` on numbers: any comparison involving `NaN` is `false`. -/
def JSNum.gt : JSNum → JSNum → Bool
  | .num a, .num b => decide (a > b)
  | _, _ => false

/-- JavaScript `<=` on numbers: any comparison involving `NaN` is `false`. -/
def JSNum.le : JSNum → JSNum → Bool
  | .num a, .num b => decide (a ≤ b)
  | _, _ => false

/-- JavaScript strict equality `===` on numbers: `NaN === x` is `false`. -/
def JSNum.eq : JSNum → JSNum → Bool
  | .num a, .num b => decide (a = b)
  | _, _ => false

/-- What a handler observes of a JSON body field that it coerces with
`Number(...)`: its truthiness and its coerced numeric value.
(E.g. the string `"abc"` is `⟨true, nan⟩`, the string `"0"` is
`⟨true, num 0⟩`, the number `0` is `⟨false, num 0⟩`.) -/
structure JSVal where
  truthy : Bool
  toNum : JSNum
deriving DecidableEq, Repr

/-- Truthiness of an optional numeric-ish field (`undefined` is falsy). -/
def optTruthy : Option JSVal → Bool
  | none => false
  | some v => v.truthy

/-- Truthiness of an optional string field (`undefined` and `""` are falsy). -/
def strTruthy : Option String → Bool
  | none => false
  | some s => decide (s ≠ "")

/-- `Number(x)` of an optional field (`Number(undefined)` is `NaN`). -/
def numOf : Option JSVal → JSNum
  | none => .nan
  | some v => v.toNum

/-- `x || ''` on an optional string field. -/
def orEmpty : Option String → String
  | none => ""
  | some s => s

/-- An event record, as stored in the `events` array.  `capacity` is the
result of `Number(...)` coercion, so it may be `NaN`. -/
structure Event where
  id : Int
  title : String
  description : String
  date : String
  capacity : JSNum
  location : String
deriving DecidableEq, Repr

/-- A booking record, as stored in the `bookings` array.  `eventId` and
`seats` are results of `Number(...)` coercion. -/
structure Booking where
  id : Int
  eventId : JSNum
  name : String
  email : String
  phone : String
  seats : JSNum
  createdAt : String
deriving DecidableEq, Repr

/-- The two in-memory tables. -/
structure ServerState where
  events : List Event
  bookings : List Booking
deriving DecidableEq, Repr

/-- `const nextId = (arr) => (arr.length ? Math.max(...arr.map(i => i.id)) + 1 : 1)`,
applied to the list of ids. -/
def nextId (ids : List Int) : Int :=
  match ids with
  | [] => 1
  | h :: t => t.foldl max h + 1

/-- `findIndex` together with the element found (JS mutates `arr[idx]`;
we return the index and the record at it). -/
def findIdxElem (p : α → Bool) : List α → Option (Nat × α)
  | [] => none
  | x :: xs => if p x then some (0, x) else (findIdxElem p xs).map (fun r => (r.1 + 1, r.2))

/-- `findIndex` + `splice(idx, 1)`: the removed element and the remaining list. -/
def removeFirst (p : α → Bool) : List α → Option (α × List α)
  | [] => none
  | x :: xs => if p x then some (x, xs) else (removeFirst p xs).map (fun r => (r.1, x :: r.2))

/-- `.reduce((s, b) => s + Number(b.seats), 0)`. -/
def sumSeats (bs : List Booking) : JSNum :=
  bs.foldl (fun s b => s.add b.seats) (.num 0)

/-- Seats booked against event id `eid`: the sum of `seats` over the
bookings whose `eventId` equals `eid`. -/
def bookedSeats (bs : List Booking) (eid : Int) : JSNum :=
  sumSeats (bs.filter (fun b => b.eventId.eq (.num eid)))

/-- The capacity invariant of the spec: for every event, the booked-seat
sum is a number that is at most the event's capacity. -/
def capacityInvariant (st : ServerState) : Bool :=
  st.events.all (fun e => (bookedSeats st.bookings e.id).le e.capacity)

/-! ### Request bodies -/

/-- Body of `POST /events/add` and `PUT /event/:id` (absent field =
`undefined`).  Non-capacity fields are strings per the data model;
`capacity` goes through `Number(...)` so it is a `JSVal`. -/
structure EventInput where
  title : Option String
  description : Option String
  date : Option String
  capacity : Option JSVal
  location : Option String
deriving DecidableEq, Repr

/-- Body of `POST /api/bookings`.  `eventId` and `seats` go through
`Number(...)` so they are `JSVal`s. -/
structure BookingInput where
  eventId : Option JSVal
  name : Option String
  email : Option String
  phone : Option String
  seats : Option JSVal
deriving DecidableEq, Repr

/-- Body of `PUT /api/bookings/:id`. -/
structure BookingUpdate where
  seats : Option JSVal
  name : Option String
  email : Option String
  phone : Option String
deriving DecidableEq, Repr

/-! ### Results -/

inductive EventCreateRes where
  | validationError
  | created (e : Event)
deriving DecidableEq, Repr

inductive EventGetRes where
  | notFound
  | ok (e : Event)
deriving DecidableEq, Repr

inductive EventUpdateRes where
  | notFound
  | ok (e : Event)
deriving DecidableEq, Repr

inductive EventDeleteRes where
  | notFound
  | deleted (e : Event)
deriving DecidableEq, Repr

inductive BookingCreateRes where
  | validationError
  | notFoundEvent
  | capacityExceeded
  | created (b : Booking)
deriving DecidableEq, Repr

inductive BookingUpdateRes where
  | notFound
  | internalError
  | capacityExceeded
  | ok (b : Booking)
deriving DecidableEq, Repr

/-- HTTP status of a `PUT /api/bookings/:id` response. -/
def BookingUpdateRes.status : BookingUpdateRes → Nat
  | .notFound => 404
  | .internalError => 500
  | .capacityExceeded => 400
  | .ok _ => 200

/-- HTTP status of a `POST /api/bookings` response. -/
def BookingCreateRes.status : BookingCreateRes → Nat
  | .validationError => 400
  | .notFoundEvent => 404
  | .capacityExceeded => 400
  | .created _ => 201

/-! ### Handlers -/

/-- `app.post('/events/add', ...)`. -/
def createEvent (st : ServerState) (body : EventInput) : ServerState × EventCreateRes :=
  if !strTruthy body.title || !strTruthy body.date || !optTruthy body.capacity then
    (st, .validationError)
  else
    let event : Event :=
      { id := nextId (st.events.map Event.id)
        title := orEmpty body.title
        description := orEmpty body.description
        date := orEmpty body.date
        capacity := numOf body.capacity
        location := orEmpty body.location }
    ({ st with events := st.events ++ [event] }, .created event)

/-- `app.get('/event/:id', ...)`; `pid` is `Number(req.params.id)`. -/
def getEvent (st : ServerState) (pid : JSNum) : EventGetRes :=
  match st.events.find? (fun e => (JSNum.num e.id).eq pid) with
  | none => .notFound
  | some e => .ok e

/-- The `allowed.forEach` loop of `app.put('/event/:id', ...)`:
each field present in the body is applied; `capacity` is coerced. -/
def applyEventUpdate (e : Event) (u : EventInput) : Event :=
  let e1 := match u.title with
    | some v => { e with title := v }
    | none => e
  let e2 := match u.description with
    | some v => { e1 with description := v }
    | none => e1
  let e3 := match u.date with
    | some v => { e2 with date := v }
    | none => e2
  let e4 := match u.capacity with
    | some v => { e3 with capacity := v.toNum }
    | none => e3
  match u.location with
  | some v => { e4 with location := v }
  | none => e4

/-- `app.put('/event/:id', ...)`. -/
def updateEvent (st : ServerState) (pid : JSNum) (u : EventInput) :
    ServerState × EventUpdateRes :=
  match findIdxElem (fun e => (JSNum.num e.id).eq pid) st.events with
  | none => (st, .notFound)
  | some (idx, e) =>
    let e2 := applyEventUpdate e u
    ({ st with events := st.events.set idx e2 }, .ok e2)

/-- `app.delete('/event/:id', ...)`: removes the event and filters out the
bookings whose `eventId` equals the path id. -/
def deleteEvent (st : ServerState) (pid : JSNum) : ServerState × EventDeleteRes :=
  match removeFirst (fun e => (JSNum.num e.id).eq pid) st.events with
  | none => (st, .notFound)
  | some (e, rest) =>
    ({ events := rest
       bookings := st.bookings.filter (fun b => !b.eventId.eq pid) }, .deleted e)

/-- `app.post('/api/bookings', ...)`; `now` is `new Date().toISOString()`. -/
def createBooking (st : ServerState) (body : BookingInput) (now : String) :
    ServerState × BookingCreateRes :=
  if !optTruthy body.eventId || !strTruthy body.name || !strTruthy body.email
      || !optTruthy body.seats then
    (st, .validationError)
  else
    let eidNum := numOf body.eventId
    match st.events.find? (fun e => (JSNum.num e.id).eq eidNum) with
    | none => (st, .notFoundEvent)
    | some ev =>
      let seatsRequested := numOf body.seats
      let seatsBooked := sumSeats (st.bookings.filter (fun b => b.eventId.eq eidNum))
      if (seatsBooked.add seatsRequested).gt ev.capacity then
        (st, .capacityExceeded)
      else
        let booking : Booking :=
          { id := nextId (st.bookings.map Booking.id)
            eventId := eidNum
            name := orEmpty body.name
            email := orEmpty body.email
            phone := orEmpty body.phone
            seats := seatsRequested
            createdAt := now }
        ({ st with bookings := st.bookings ++ [booking] }, .created booking)

/-- The `['name','email','phone'].forEach` loop of
`app.put('/api/bookings/:id', ...)`. -/
def applyContactFields (b : Booking) (u : BookingUpdate) : Booking :=
  let b1 := match u.name with
    | some v => { b with name := v }
    | none => b
  let b2 := match u.email with
    | some v => { b1 with email := v }
    | none => b1
  match u.phone with
  | some v => { b2 with phone := v }
  | none => b2

/-- `app.put('/api/bookings/:id', ...)`. -/
def updateBooking (st : ServerState) (pid : JSNum) (u : BookingUpdate) :
    ServerState × BookingUpdateRes :=
  match findIdxElem (fun b => (JSNum.num b.id).eq pid) st.bookings with
  | none => (st, .notFound)
  | some (idx, bk) =>
    match u.seats with
    | some sv =>
      match st.events.find? (fun e => (JSNum.num e.id).eq bk.eventId) with
      | none => (st, .internalError)
      | some ev =>
        let newSeats := sv.toNum
        let seatsOther := sumSeats (st.bookings.filter
          (fun b => b.eventId.eq bk.eventId && !(JSNum.num b.id).eq pid))
        if (seatsOther.add newSeats).gt ev.capacity then
          (st, .capacityExceeded)
        else
          let b2 := applyContactFields { bk with seats := newSeats } u
          ({ st with bookings := st.bookings.set idx b2 }, .ok b2)
    | none =>
      let b2 := applyContactFields bk u
      ({ st with bookings := st.bookings.set idx b2 }, .ok b2)

/-- `app.delete('/api/bookings/:id', ...)`. -/
def deleteBooking (st : ServerState) (pid : JSNum) : ServerState × Option Booking :=
  match removeFirst (fun b => (JSNum.num b.id).eq pid) st.bookings with
  | none => (st, none)
  | some (b, rest) => ({ st with bookings := rest }, some b)

/-! ### Seed data (the two sample records the server starts with) -/

/-- The sample event the server starts with. -/
def seedEvent : Event :=
  { id := 1
    title := "Synergia Tech Talk"
    description := "A tech talk on fullstack development"
    date := "2025-12-10"
    capacity := .num 100
    location := "Main Auditorium" }

/-- The sample booking the server starts with; `t0` is the start-up timestamp. -/
def seedBooking (t0 : String) : Booking :=
  { id := 1
    eventId := .num 1
    name := "Alice Kumar"
    email := "alice@example.com"
    phone := "9876543210"
    seats := .num 1
    createdAt := t0 }

/-- The server's initial state. -/
def seedState (t0 : String) : ServerState :=
  { events := [seedEvent], bookings := [seedBooking t0] }

/-! ### Basic lemmas about the JavaScript-number model -/

theorem JSNum.add_nan (x : JSNum) : x.add .nan = .nan := by
  cases x <;> rfl

theorem JSNum.nan_add (x : JSNum) : JSNum.nan.add x = .nan := by
  cases x <;> rfl

theorem JSNum.zero_add (x : JSNum) : (JSNum.num 0).add x = x := by
  cases x <;> simp [JSNum.add]

theorem JSNum.add_comm (x y : JSNum) : x.add y = y.add x := by
  cases x <;> cases y <;> simp [JSNum.add] <;> ring

theorem JSNum.add_assoc (x y z : JSNum) : (x.add y).add z = x.add (y.add z) := by
  cases x <;> cases y <;> cases z <;> simp [JSNum.add] <;> ring

theorem JSNum.eq_true_iff (x y : JSNum) :
    x.eq y = true ↔ ∃ a : Int, x = .num a ∧ y = .num a := by
  cases x <;> cases y <;> simp [JSNum.eq]
  exact eq_comm

theorem JSNum.le_true_iff (x y : JSNum) :
    x.le y = true ↔ ∃ a b : Int, x = .num a ∧ y = .num b ∧ a ≤ b := by
  cases x <;> cases y <;> simp [JSNum.le]

theorem JSNum.gt_false_iff (x y : JSNum) :
    x.gt y = false ↔ ∀ a b : Int, x = .num a → y = .num b → a ≤ b := by
  cases x <;> cases y <;> simp [JSNum.gt]

/-! ### Lemmas about `sumSeats` -/

theorem sumSeats_nil : sumSeats [] = .num 0 := rfl

theorem foldl_add_shift (l : List Booking) (s : JSNum) :
    l.foldl (fun a b => a.add b.seats) s = s.add (sumSeats l) := by
  induction l generalizing s with
  | nil => simp [sumSeats, List.foldl, JSNum.add_nan]; cases s <;> simp [JSNum.add]
  | cons b t ih =>
    simp only [sumSeats, List.foldl] at ih ⊢
    rw [ih, ih ((JSNum.num 0).add b.seats), JSNum.zero_add, JSNum.add_assoc]

theorem sumSeats_cons (b : Booking) (l : List Booking) :
    sumSeats (b :: l) = b.seats.add (sumSeats l) := by
  simp only [sumSeats, List.foldl]
  rw [foldl_add_shift, JSNum.zero_add]
  rfl

theorem sumSeats_append (l1 l2 : List Booking) :
    sumSeats (l1 ++ l2) = (sumSeats l1).add (sumSeats l2) := by
  induction l1 with
  | nil => rw [List.nil_append, sumSeats_nil, JSNum.zero_add]
  | cons b t ih =>
    rw [List.cons_append, sumSeats_cons, sumSeats_cons, ih, JSNum.add_assoc]

/-! ### Lemmas about `findIdxElem` and `removeFirst` -/

theorem findIdxElem_eq_none (p : α → Bool) (l : List α) :
    findIdxElem p l = none ↔ ∀ x ∈ l, p x = false := by
  induction l with
  | nil => simp [findIdxElem]
  | cons x xs ih =>
    by_cases h : p x = true
    · simp [findIdxElem, h]
    · simp only [Bool.not_eq_true] at h
      simp [findIdxElem, h, ih]

theorem findIdxElem_spec (p : α → Bool) (l : List α) (n : Nat) (b : α)
    (h : findIdxElem p l = some (n, b)) :
    ∃ l1 l2, l = l1 ++ b :: l2 ∧ l1.length = n ∧ (∀ x ∈ l1, p x = false) ∧ p b = true := by
  induction l generalizing n with
  | nil => simp [findIdxElem] at h
  | cons x xs ih =>
    by_cases hx : p x = true
    · simp [findIdxElem, hx] at h
      exact ⟨[], xs, by simp [h.2], by simp [← h.1], by simp, h.2 ▸ hx⟩
    · simp only [Bool.not_eq_true] at hx
      simp only [findIdxElem, hx, Bool.false_eq_true, if_false, Option.map_eq_some'] at h
      obtain ⟨⟨m, c⟩, hm, hmc⟩ := h
      obtain ⟨hn, hc⟩ := Prod.mk.injEq .. ▸ hmc
      obtain ⟨l1, l2, hl, hlen, hall, hb⟩ := ih m (hc ▸ hm)
      exact ⟨x :: l1, l2, by simp [hl], by simp [hlen, ← hn], by
        intro y hy
        rcases List.mem_cons.mp hy with h | h
        · exact h ▸ hx
        · exact hall y h, hb⟩

theorem removeFirst_eq_none (p : α → Bool) (l : List α) :
    removeFirst p l = none ↔ ∀ x ∈ l, p x = false := by
  induction l with
  | nil => simp [removeFirst]
  | cons x xs ih =>
    by_cases h : p x = true
    · simp [removeFirst, h]
    · simp only [Bool.not_eq_true] at h
      simp [removeFirst, h, ih]

theorem removeFirst_spec (p : α → Bool) (l : List α) (b : α) (rest : List α)
    (h : removeFirst p l = some (b, rest)) :
    ∃ l1 l2, l = l1 ++ b :: l2 ∧ rest = l1 ++ l2 ∧ (∀ x ∈ l1, p x = false) ∧ p b = true := by
  induction l generalizing rest with
  | nil => simp [removeFirst] at h
  | cons x xs ih =>
    by_cases hx : p x = true
    · simp [removeFirst, hx] at h
      exact ⟨[], xs, by simp [h.1], by simp [h.2], by simp, h.1 ▸ hx⟩
    · simp only [Bool.not_eq_true] at hx
      simp only [removeFirst, hx, Bool.false_eq_true, if_false, Option.map_eq_some'] at h
      obtain ⟨⟨c, r⟩, hm, hmc⟩ := h
      obtain ⟨hc, hr⟩ := Prod.mk.injEq .. ▸ hmc
      obtain ⟨l1, l2, hl, hrest, hall, hb⟩ := ih r (hc ▸ hm)
      exact ⟨x :: l1, l2, by simp [hl], by simp [← hr, hrest], by
        intro y hy
        rcases List.mem_cons.mp hy with h | h
        · exact h ▸ hx
        · exact hall y h, hb⟩

theorem set_append_cons (l1 l2 : List α) (b b' : α) :
    (l1 ++ b :: l2).set l1.length b' = l1 ++ b' :: l2 := by
  induction l1 with
  | nil => simp
  | cons x xs ih => simp [List.set, ih]

/-! ### Field-update helper lemmas -/

theorem JSNum.nan_gt (y : JSNum) : JSNum.nan.gt y = false := by
  cases y <;> rfl

theorem optTruthy_some (v : JSVal) : optTruthy (some v) = v.truthy := rfl

theorem numOf_some (v : JSVal) : numOf (some v) = v.toNum := rfl

theorem applyContactFields_seats (b : Booking) (u : BookingUpdate) :
    (applyContactFields b u).seats = b.seats := by
  unfold applyContactFields
  cases u.name <;> cases u.email <;> cases u.phone <;> rfl

theorem applyContactFields_id (b : Booking) (u : BookingUpdate) :
    (applyContactFields b u).id = b.id := by
  unfold applyContactFields
  cases u.name <;> cases u.email <;> cases u.phone <;> rfl

theorem applyContactFields_eventId (b : Booking) (u : BookingUpdate) :
    (applyContactFields b u).eventId = b.eventId := by
  unfold applyContactFields
  cases u.name <;> cases u.email <;> cases u.phone <;> rfl

theorem applyContactFields_name (b : Booking) (u : BookingUpdate) (s : String)
    (h : u.name = some s) : (applyContactFields b u).name = s := by
  unfold applyContactFields
  rw [h]
  cases u.email <;> cases u.phone <;> rfl

theorem applyContactFields_email (b : Booking) (u : BookingUpdate) (s : String)
    (h : u.email = some s) : (applyContactFields b u).email = s := by
  unfold applyContactFields
  rw [h]
  cases u.name <;> cases u.phone <;> rfl

theorem applyContactFields_phone (b : Booking) (u : BookingUpdate) (s : String)
    (h : u.phone = some s) : (applyContactFields b u).phone = s := by
  unfold applyContactFields
  rw [h]

theorem applyEventUpdate_id (e : Event) (u : EventInput) :
    (applyEventUpdate e u).id = e.id := by
  unfold applyEventUpdate
  cases u.title <;> cases u.description <;> cases u.date <;>
    cases u.capacity <;> cases u.location <;> rfl

theorem applyEventUpdate_capacity (e : Event) (u : EventInput) (cv : JSVal)
    (h : u.capacity = some cv) : (applyEventUpdate e u).capacity = cv.toNum := by
  unfold applyEventUpdate
  rw [h]
  cases u.title <;> cases u.description <;> cases u.date <;> cases u.location <;> rfl

/-! ### Claim C4 -/

/-- C4: when `PUT /api/bookings/:id` rejects a seats change because it would
push the event's total over capacity, the response has status 400 and the
server state — in particular the stored booking, whose `seats` field thus
keeps its prior value — is left entirely unchanged. -/
theorem bookingUpdate_reject_unchanged (st st' : ServerState) (pid : JSNum)
    (u : BookingUpdate) (r : BookingUpdateRes)
    (h : updateBooking st pid u = (st', r)) (hr : r = .capacityExceeded) :
    r.status = 400 ∧ st' = st := by
  subst hr
  refine ⟨rfl, ?_⟩
  unfold updateBooking at h
  repeat' split at h
  all_goals try simp only [] at h
  all_goals try split at h
  all_goals simp_all

/-- Witness for C4: in the seed state (event 1 has capacity 100 and one seat
booked), updating booking 1 to 200 seats is rejected with 400 and leaves the
state unchanged. -/
theorem bookingUpdate_reject_unchanged_witness :
    BookingUpdateRes.capacityExceeded.status = 400 ∧ seedState "" = seedState "" :=
  bookingUpdate_reject_unchanged (seedState "") (seedState "") (.num 1)
    ⟨some ⟨true, .num 200⟩, none, none, none⟩ .capacityExceeded rfl rfl

/-! ### Claim C10 -/

/-- C10: `PUT /event/:id` applies a supplied `capacity` field (numerically
coerced) unconditionally, with no comparison against the booked-seat total:
updating an existing event's capacity to a value strictly below the current
booked total succeeds with the updated record and leaves the event with
booked seats exceeding its capacity. -/
theorem eventUpdate_capacity_unchecked (st : ServerState) (pid : JSNum)
    (u : EventInput) (idx : Nat) (e : Event)
    (hf : findIdxElem (fun e => (JSNum.num e.id).eq pid) st.events = some (idx, e))
    (cv : JSVal) (hc : u.capacity = some cv) (s c : Int)
    (hs : bookedSeats st.bookings e.id = .num s)
    (hcv : cv.toNum = .num c) (hlt : c < s) :
    (updateEvent st pid u).2 = .ok (applyEventUpdate e u) ∧
    (applyEventUpdate e u).capacity = .num c ∧
    (updateEvent st pid u).1.bookings = st.bookings ∧
    (bookedSeats (updateEvent st pid u).1.bookings (applyEventUpdate e u).id).le
      (applyEventUpdate e u).capacity = false := by
  unfold updateEvent
  rw [hf]
  refine ⟨rfl, ?_, rfl, ?_⟩
  · rw [applyEventUpdate_capacity e u cv hc, hcv]
  · rw [applyEventUpdate_id, applyEventUpdate_capacity e u cv hc, hcv]
    show (bookedSeats st.bookings e.id).le (.num c) = false
    rw [hs]
    simp only [JSNum.le, decide_eq_false_iff_not]
    omega

/-- Witness for C10: in the seed state, setting event 1's capacity to 0
while one seat is booked succeeds and leaves booked seats above capacity. -/
theorem eventUpdate_capacity_unchecked_witness :
    (updateEvent (seedState "") (.num 1) ⟨none, none, none, some ⟨true, .num 0⟩, none⟩).2
        = .ok (applyEventUpdate seedEvent ⟨none, none, none, some ⟨true, .num 0⟩, none⟩) ∧
    (applyEventUpdate seedEvent ⟨none, none, none, some ⟨true, .num 0⟩, none⟩).capacity = .num 0 ∧
    (updateEvent (seedState "") (.num 1)
        ⟨none, none, none, some ⟨true, .num 0⟩, none⟩).1.bookings = (seedState "").bookings ∧
    (bookedSeats (updateEvent (seedState "") (.num 1)
          ⟨none, none, none, some ⟨true, .num 0⟩, none⟩).1.bookings
        (applyEventUpdate seedEvent ⟨none, none, none, some ⟨true, .num 0⟩, none⟩).id).le
      (applyEventUpdate seedEvent ⟨none, none, none, some ⟨true, .num 0⟩, none⟩).capacity
        = false :=
  eventUpdate_capacity_unchecked (seedState "") (.num 1)
    ⟨none, none, none, some ⟨true, .num 0⟩, none⟩ 0 seedEvent rfl
    ⟨true, .num 0⟩ rfl 1 0 rfl rfl (by omega)

/-! ### Claim C8 -/

/-- C8: a truthy but non-numeric `seats` input coerces to `NaN`; the
capacity comparison against `NaN` evaluates to `false`, so a booking create
(with valid fields and an existing event) and a seats update (on an existing
booking with an existing event) both proceed and store `NaN` as the seats
value instead of being rejected. -/
theorem nan_seats_bypass
    (sum cap : JSNum)
    (st : ServerState) (body : BookingInput) (now : String) (sv : JSVal)
    (hsv : body.seats = some sv) (htr : sv.truthy = true) (hnan : sv.toNum = .nan)
    (hev : optTruthy body.eventId = true) (hnm : strTruthy body.name = true)
    (hem : strTruthy body.email = true) (ev : Event)
    (hfind : st.events.find? (fun e => (JSNum.num e.id).eq (numOf body.eventId)) = some ev)
    (st2 : ServerState) (pid : JSNum) (u : BookingUpdate) (idx : Nat) (bk : Booking)
    (hfi : findIdxElem (fun b => (JSNum.num b.id).eq pid) st2.bookings = some (idx, bk))
    (sv2 : JSVal) (hu : u.seats = some sv2) (hnan2 : sv2.toNum = .nan)
    (ev2 : Event)
    (hfind2 : st2.events.find? (fun e => (JSNum.num e.id).eq bk.eventId) = some ev2) :
    (sum.add .nan).gt cap = false ∧
    (∃ b, (createBooking st body now).2 = .created b ∧ b.seats = .nan ∧
      (createBooking st body now).1.bookings = st.bookings ++ [b]) ∧
    (∃ b2, (updateBooking st2 pid u).2 = .ok b2 ∧ b2.seats = .nan ∧
      (updateBooking st2 pid u).1.bookings = st2.bookings.set idx b2) := by
  refine ⟨by rw [JSNum.add_nan]; exact JSNum.nan_gt cap, ?_, ?_⟩
  · simp only [createBooking, hsv, hev, hnm, hem, optTruthy_some, htr, numOf_some,
      Bool.not_true, Bool.or_false, Bool.false_or, Bool.or_self,
      Bool.false_eq_true, if_false, hfind, hnan, JSNum.add_nan, JSNum.nan_gt]
    exact ⟨_, rfl, rfl, rfl⟩
  · simp only [updateBooking, hfi, hu, hfind2, hnan2, JSNum.add_nan, JSNum.nan_gt,
      Bool.false_eq_true, if_false]
    exact ⟨_, rfl, applyContactFields_seats _ u, rfl⟩

/-- Witness for C8: from the seed state, creating a booking with
`seats = "abc"` (truthy, coercing to `NaN`) succeeds and stores `NaN`, and
updating booking 1 with such a seats value also succeeds and stores `NaN`. -/
theorem nan_seats_bypass_witness :
    ((JSNum.num 0).add .nan).gt (.num 100) = false ∧
    (∃ b, (createBooking (seedState "") ⟨some ⟨true, .num 1⟩, some "Bob", some "bob@example.com",
        none, some ⟨true, .nan⟩⟩ "t").2 = .created b ∧ b.seats = .nan ∧
      (createBooking (seedState "") ⟨some ⟨true, .num 1⟩, some "Bob", some "bob@example.com",
        none, some ⟨true, .nan⟩⟩ "t").1.bookings = (seedState "").bookings ++ [b]) ∧
    (∃ b2, (updateBooking (seedState "") (.num 1) ⟨some ⟨true, .nan⟩, none, none, none⟩).2
        = .ok b2 ∧ b2.seats = .nan ∧
      (updateBooking (seedState "") (.num 1)
          ⟨some ⟨true, .nan⟩, none, none, none⟩).1.bookings
        = (seedState "").bookings.set 0 b2) :=
  nan_seats_bypass (.num 0) (.num 100) (seedState "")
    ⟨some ⟨true, .num 1⟩, some "Bob", some "bob@example.com", none, some ⟨true, .nan⟩⟩
    "t" ⟨true, .nan⟩ rfl rfl rfl rfl (by decide) (by decide) seedEvent rfl
    (seedState "") (.num 1) ⟨some ⟨true, .nan⟩, none, none, none⟩ 0 (seedBooking "")
    rfl ⟨true, .nan⟩ rfl rfl seedEvent rfl

/-! ### Claim C2 -/

/-- C2: `POST /api/bookings` fails with `ValidationError` exactly when one of
`eventId`, `name`, `email`, `seats` is missing or falsy; otherwise fails with
`NotFound` exactly when no event's id equals the numerically coerced
`eventId`; otherwise fails with `CapacityExceeded` exactly when the seat sum
of the existing bookings for that event plus the requested seats exceeds the
event's capacity; otherwise it assigns the next id, stamps `createdAt`,
appends the new booking and returns it — the checks in that order. -/
theorem createBooking_characterization (st : ServerState) (body : BookingInput)
    (now : String) :
    ((createBooking st body now).2 = .validationError ↔
      (optTruthy body.eventId = false ∨ strTruthy body.name = false ∨
       strTruthy body.email = false ∨ optTruthy body.seats = false)) ∧
    ((createBooking st body now).2 = .validationError → (createBooking st body now).1 = st) ∧
    ((createBooking st body now).2 = .notFoundEvent ↔
      (optTruthy body.eventId = true ∧ strTruthy body.name = true ∧
       strTruthy body.email = true ∧ optTruthy body.seats = true ∧
       ∀ e ∈ st.events, (JSNum.num e.id).eq (numOf body.eventId) = false)) ∧
    (∀ ev, st.events.find? (fun e => (JSNum.num e.id).eq (numOf body.eventId)) = some ev →
      optTruthy body.eventId = true → strTruthy body.name = true →
      strTruthy body.email = true → optTruthy body.seats = true →
      (((createBooking st body now).2 = .capacityExceeded ↔
        ((sumSeats (st.bookings.filter (fun b => b.eventId.eq (numOf body.eventId)))).add
          (numOf body.seats)).gt ev.capacity = true) ∧
       (((sumSeats (st.bookings.filter (fun b => b.eventId.eq (numOf body.eventId)))).add
          (numOf body.seats)).gt ev.capacity = false →
        ∃ b, createBooking st body now = ({ st with bookings := st.bookings ++ [b] }, .created b) ∧
          b.id = nextId (st.bookings.map Booking.id) ∧ b.createdAt = now ∧
          b.eventId = numOf body.eventId ∧ b.seats = numOf body.seats ∧
          b.name = orEmpty body.name ∧ b.email = orEmpty body.email ∧
          b.phone = orEmpty body.phone))) := by
  cases hval : (!optTruthy body.eventId || !strTruthy body.name
      || !strTruthy body.email || !optTruthy body.seats) with
  | true =>
    have hd : optTruthy body.eventId = false ∨ strTruthy body.name = false ∨
        strTruthy body.email = false ∨ optTruthy body.seats = false := by
      simpa [Bool.or_eq_true, Bool.not_eq_true', or_assoc] using hval
    have hres : createBooking st body now = (st, .validationError) := by
      simp only [createBooking, hval, if_true]
    rw [hres]
    refine ⟨iff_of_true rfl hd, fun _ => rfl, ?_, ?_⟩
    · refine iff_of_false (by simp) ?_
      rintro ⟨h1, h2, h3, h4, -⟩
      rcases hd with h | h | h | h <;> simp_all
    · intro ev _ h1 h2 h3 h4
      rcases hd with h | h | h | h <;> simp_all
  | false =>
    obtain ⟨h1, h2, h3, h4⟩ : optTruthy body.eventId = true ∧ strTruthy body.name = true ∧
        strTruthy body.email = true ∧ optTruthy body.seats = true := by
      simpa [Bool.or_eq_false_iff, Bool.not_eq_false', and_assoc] using hval
    rcases hfind : st.events.find? (fun e => (JSNum.num e.id).eq (numOf body.eventId))
        with _ | ev
    · have hres : createBooking st body now = (st, .notFoundEvent) := by
        simp only [createBooking, hval, Bool.false_eq_true, if_false, hfind]
      rw [hres]
      refine ⟨?_, by rintro ⟨⟩, ?_, ?_⟩
      · refine iff_of_false (by simp) ?_
        rintro (h | h | h | h) <;> simp_all
      · refine iff_of_true rfl ⟨h1, h2, h3, h4, ?_⟩
        intro e he
        have := List.find?_eq_none.mp hfind e he
        simpa using this
      · intro ev' hev'
        rw [hfind] at hev'
        cases hev'
    · cases hgt : ((sumSeats (st.bookings.filter (fun b => b.eventId.eq (numOf body.eventId)))).add
          (numOf body.seats)).gt ev.capacity with
      | true =>
        have hres : createBooking st body now = (st, .capacityExceeded) := by
          simp only [createBooking, hval, Bool.false_eq_true, if_false, hfind, hgt, if_true]
        rw [hres]
        refine ⟨?_, by rintro ⟨⟩, ?_, ?_⟩
        · refine iff_of_false (by simp) ?_
          rintro (h | h | h | h) <;> simp_all
        · refine iff_of_false (by simp) ?_
          rintro ⟨-, -, -, -, hall⟩
          have hmem := List.mem_of_find?_eq_some hfind
          have hp := List.find?_some hfind
          rw [hall ev hmem] at hp
          cases hp
        · intro ev' hev' _ _ _ _
          rw [hfind] at hev'
          cases hev'
          exact ⟨iff_of_true rfl hgt, fun hcontra => by rw [hgt] at hcontra; cases hcontra⟩
      | false =>
        have hres : createBooking st body now =
            ({ st with bookings := st.bookings ++
              [{ id := nextId (st.bookings.map Booking.id)
                 eventId := numOf body.eventId
                 name := orEmpty body.name
                 email := orEmpty body.email
                 phone := orEmpty body.phone
                 seats := numOf body.seats
                 createdAt := now }] },
             .created { id := nextId (st.bookings.map Booking.id)
                        eventId := numOf body.eventId
                        name := orEmpty body.name
                        email := orEmpty body.email
                        phone := orEmpty body.phone
                        seats := numOf body.seats
                        createdAt := now }) := by
          simp only [createBooking, hval, Bool.false_eq_true, if_false, hfind, hgt]
        rw [hres]
        refine ⟨?_, by rintro ⟨⟩, ?_, ?_⟩
        · refine iff_of_false (by simp) ?_
          rintro (h | h | h | h) <;> simp_all
        · refine iff_of_false (by simp) ?_
          rintro ⟨-, -, -, -, hall⟩
          have hmem := List.mem_of_find?_eq_some hfind
          have hp := List.find?_some hfind
          rw [hall ev hmem] at hp
          cases hp
        · intro ev' hev' _ _ _ _
          rw [hfind] at hev'
          cases hev'
          refine ⟨iff_of_false (by simp) (fun hcontra => by rw [hgt] at hcontra; cases hcontra), ?_⟩
          intro _
          exact ⟨_, rfl, rfl, rfl, rfl, rfl, rfl, rfl, rfl⟩

/-- Witness for C2, the spec's own scenario: the seed event has capacity 100
with 1 seat booked, so requesting 100 more seats is rejected as
`CapacityExceeded`. -/
theorem createBooking_characterization_witness :
    (createBooking (seedState "") ⟨some ⟨true, .num 1⟩, some "Bob", some "bob@example.com",
      none, some ⟨true, .num 100⟩⟩ "t").2 = .capacityExceeded :=
  (((createBooking_characterization (seedState "")
      ⟨some ⟨true, .num 1⟩, some "Bob", some "bob@example.com", none, some ⟨true, .num 100⟩⟩
      "t").2.2.2 seedEvent rfl rfl (by decide) (by decide) rfl).1).mpr (by decide)

/-! ### Claim C3 -/

/-- C3: `PUT /api/bookings/:id` fails with `NotFound` exactly when no stored
booking's id equals the path id.  When `seats` is supplied and the booking is
found, it fails with `InternalError` exactly when no event's id equals the
booking's stored `eventId`; when that event exists it fails with
`CapacityExceeded` exactly when the seat sum over all other bookings for
that event (excluding the booking being updated) plus the new seats value
exceeds the event's capacity, and otherwise stores the booking with `seats`
set to the coerced new value. -/
theorem updateBooking_characterization (st : ServerState) (pid : JSNum)
    (u : BookingUpdate) :
    ((updateBooking st pid u).2 = .notFound ↔
      ∀ b ∈ st.bookings, (JSNum.num b.id).eq pid = false) ∧
    (∀ idx bk, findIdxElem (fun b => (JSNum.num b.id).eq pid) st.bookings = some (idx, bk) →
      ∀ sv, u.seats = some sv →
      (((updateBooking st pid u).2 = .internalError ↔
        ∀ e ∈ st.events, (JSNum.num e.id).eq bk.eventId = false) ∧
       (∀ ev, st.events.find? (fun e => (JSNum.num e.id).eq bk.eventId) = some ev →
        (((updateBooking st pid u).2 = .capacityExceeded ↔
          ((sumSeats (st.bookings.filter
              (fun b => b.eventId.eq bk.eventId && !(JSNum.num b.id).eq pid))).add
            sv.toNum).gt ev.capacity = true) ∧
         (((sumSeats (st.bookings.filter
              (fun b => b.eventId.eq bk.eventId && !(JSNum.num b.id).eq pid))).add
            sv.toNum).gt ev.capacity = false →
          ∃ b2, updateBooking st pid u
              = ({ st with bookings := st.bookings.set idx b2 }, .ok b2) ∧
            b2.seats = sv.toNum))))) := by
  rcases hfi : findIdxElem (fun b => (JSNum.num b.id).eq pid) st.bookings with _ | ⟨idx, bk⟩
  · have hres : updateBooking st pid u = (st, .notFound) := by
      simp only [updateBooking, hfi]
    refine ⟨?_, ?_⟩
    · rw [hres]
      exact iff_of_true rfl (fun b hb => by
        have := (findIdxElem_eq_none _ _).mp hfi b hb
        simpa using this)
    · intro idx' bk' hfi'
      rw [hfi] at hfi'
      cases hfi'
  · obtain ⟨l1, l2, hl, hlen, hall, hp⟩ := findIdxElem_spec _ _ _ _ hfi
    have hmem : bk ∈ st.bookings := hl ▸ List.mem_append_right _ (List.mem_cons_self _ _)
    have hne : (updateBooking st pid u).2 ≠ .notFound := by
      simp only [updateBooking, hfi]
      rcases hus : u.seats with _ | sv
      · simp [hus]
      · rcases hfe : st.events.find? (fun e => (JSNum.num e.id).eq bk.eventId) with _ | ev
        · simp [hus, hfe]
        · cases hgt : ((sumSeats (st.bookings.filter
              (fun b => b.eventId.eq bk.eventId && !(JSNum.num b.id).eq pid))).add
              sv.toNum).gt ev.capacity <;> simp [hus, hfe, hgt]
    refine ⟨iff_of_false hne ?_, ?_⟩
    · intro hall2
      rw [hall2 bk hmem] at hp
      cases hp
    · intro idx' bk' hfi' sv hus
      rw [hfi] at hfi'
      simp only [Option.some.injEq, Prod.mk.injEq] at hfi'
      obtain ⟨rfl, rfl⟩ := hfi'
      rcases hfe : st.events.find? (fun e => (JSNum.num e.id).eq bk.eventId) with _ | ev
      · have hres : updateBooking st pid u = (st, .internalError) := by
          simp only [updateBooking, hfi, hus, hfe]
        refine ⟨?_, ?_⟩
        · rw [hres]
          exact iff_of_true rfl (fun e he => by
            have := List.find?_eq_none.mp hfe e he
            simpa using this)
        · intro ev hev
          rw [hfe] at hev
          cases hev
      · have hevmem := List.mem_of_find?_eq_some hfe
        have hevp := List.find?_some hfe
        refine ⟨?_, ?_⟩
        · refine iff_of_false ?_ ?_
          · cases hgt : ((sumSeats (st.bookings.filter
                (fun b => b.eventId.eq bk.eventId && !(JSNum.num b.id).eq pid))).add
                sv.toNum).gt ev.capacity <;>
              simp only [updateBooking, hfi, hus, hfe, hgt] <;> simp
          · intro hall2
            rw [hall2 ev hevmem] at hevp
            cases hevp
        · intro ev' hev'
          rw [hfe] at hev'
          simp only [Option.some.injEq] at hev'
          subst hev'
          cases hgt : ((sumSeats (st.bookings.filter
              (fun b => b.eventId.eq bk.eventId && !(JSNum.num b.id).eq pid))).add
              sv.toNum).gt ev.capacity with
          | true =>
            have hres : updateBooking st pid u = (st, .capacityExceeded) := by
              simp only [updateBooking, hfi, hus, hfe, hgt, if_true]
            rw [hres]
            exact ⟨iff_of_true rfl rfl, fun hcontra => Bool.noConfusion hcontra⟩
          | false =>
            have hres : updateBooking st pid u =
                ({ st with
                    bookings :=
                      st.bookings.set idx (applyContactFields { bk with seats := sv.toNum } u) },
                 .ok (applyContactFields { bk with seats := sv.toNum } u)) := by
              simp only [updateBooking, hfi, hus, hfe, hgt, Bool.false_eq_true, if_false]
            refine ⟨iff_of_false (by rw [hres]; simp)
              (fun hcontra => Bool.noConfusion hcontra), ?_⟩
            intro _
            exact ⟨_, hres, applyContactFields_seats _ u⟩

/-- Witness for C3: in the seed state, updating booking 1's seats to 50
passes the capacity check and stores 50 seats. -/
theorem updateBooking_characterization_witness :
    ∃ b2, updateBooking (seedState "") (.num 1) ⟨some ⟨true, .num 50⟩, none, none, none⟩
        = ({ (seedState "") with bookings := (seedState "").bookings.set 0 b2 }, .ok b2) ∧
      b2.seats = .num 50 :=
  (((updateBooking_characterization (seedState "") (.num 1)
      ⟨some ⟨true, .num 50⟩, none, none, none⟩).2 0 (seedBooking "") rfl
      ⟨true, .num 50⟩ rfl).2 seedEvent rfl).2 (by decide)

/-! ### Claim C6 -/

/-- C6: `DELETE /event/:id` on an existing id removes that event from the
events table, removes every booking whose `eventId` equals the deleted id
(leaving all other bookings unchanged, in order), and returns the deleted
event; afterwards `GET /event/:id` on that id yields `NotFound` and no
surviving booking references the deleted id. -/
theorem deleteEvent_cascades (st : ServerState) (pid : JSNum) (e : Event)
    (rest : List Event)
    (h : removeFirst (fun e => (JSNum.num e.id).eq pid) st.events = some (e, rest))
    (hnodup : (st.events.map Event.id).Nodup) :
    (deleteEvent st pid).2 = .deleted e ∧
    pid = .num e.id ∧
    (∃ l1 l2, st.events = l1 ++ e :: l2 ∧ (deleteEvent st pid).1.events = l1 ++ l2) ∧
    (deleteEvent st pid).1.bookings
      = st.bookings.filter (fun b => !b.eventId.eq (.num e.id)) ∧
    (∀ b ∈ (deleteEvent st pid).1.bookings, b.eventId.eq (.num e.id) = false) ∧
    getEvent (deleteEvent st pid).1 pid = .notFound := by
  obtain ⟨l1, l2, hl, hrest, hall, hp⟩ := removeFirst_spec _ _ _ _ h
  have hpid : pid = .num e.id := by
    obtain ⟨a, ha1, ha2⟩ := (JSNum.eq_true_iff _ _).mp hp
    cases ha1
    exact ha2
  have hres : deleteEvent st pid =
      ({ events := rest, bookings := st.bookings.filter (fun b => !b.eventId.eq pid) },
       .deleted e) := by
    simp only [deleteEvent, h]
  have hmemfalse : ∀ b ∈ st.bookings.filter (fun b => !b.eventId.eq pid),
      b.eventId.eq (.num e.id) = false := by
    intro b hb
    have := (List.mem_filter.mp hb).2
    rw [← hpid]
    simpa using this
  refine ⟨by rw [hres], hpid, ⟨l1, l2, hl, by rw [hres, hrest]⟩, ?_, ?_, ?_⟩
  · rw [hres, hpid]
  · intro b hb
    rw [hres] at hb
    exact hmemfalse b hb
  · have hid2 : e.id ∉ l2.map Event.id := by
      rw [hl] at hnodup
      simp only [List.map_append, List.map_cons] at hnodup
      exact (List.nodup_cons.mp (hnodup.of_append_right)).1
    have hnone : ∀ x ∈ l1 ++ l2, ¬ ((JSNum.num x.id).eq pid = true) := by
      intro x hx
      rcases List.mem_append.mp hx with hx1 | hx2
      · simp [hall x hx1]
      · rw [hpid]
        simp only [JSNum.eq, decide_eq_true_eq]
        intro hcontra
        exact hid2 (hcontra ▸ List.mem_map_of_mem Event.id hx2)
    unfold getEvent
    rw [hres]
    simp only [hrest]
    rw [List.find?_eq_none.mpr hnone]

/-- Witness for C6: deleting event 1 from the seed state removes the event,
removes the seed booking referencing it, and a subsequent lookup of event 1
is `NotFound`. -/
theorem deleteEvent_cascades_witness :
    (deleteEvent (seedState "") (.num 1)).2 = .deleted seedEvent ∧
    JSNum.num 1 = JSNum.num seedEvent.id ∧
    (∃ l1 l2, (seedState "").events = l1 ++ seedEvent :: l2 ∧
      (deleteEvent (seedState "") (.num 1)).1.events = l1 ++ l2) ∧
    (deleteEvent (seedState "") (.num 1)).1.bookings
      = (seedState "").bookings.filter (fun b => !b.eventId.eq (.num seedEvent.id)) ∧
    (∀ b ∈ (deleteEvent (seedState "") (.num 1)).1.bookings,
      b.eventId.eq (.num seedEvent.id) = false) ∧
    getEvent (deleteEvent (seedState "") (.num 1)).1 (.num 1) = .notFound :=
  deleteEvent_cascades (seedState "") (.num 1) seedEvent [] rfl (by decide)

/-! ### Claim C5 -/

/-- C5 counterexample: updating booking 1 with a too-large seats value AND a
new name is rejected, and the stored booking's name stays "Alice Kumar" —
the contact fields are NOT applied when the seats check fails, contradicting
"applied ... independently of ... whether that seats update succeeds". -/
theorem contactFields_not_applied_on_reject :
    (updateBooking (seedState "") (.num 1)
        ⟨some ⟨true, .num 200⟩, some "Bob", none, none⟩).2 = .capacityExceeded ∧
    ∀ b ∈ (updateBooking (seedState "") (.num 1)
        ⟨some ⟨true, .num 200⟩, some "Bob", none, none⟩).1.bookings,
      b.name = "Alice Kumar" := by
  constructor
  · rfl
  · decide

/-- C5 (amended): whenever `PUT /api/bookings/:id` returns the updated
record, each of `name`, `email`, `phone` present in the input is applied
verbatim to the returned booking, which is stored in place of the old one;
when the seats check fails, the handler returns early and applies nothing. -/
theorem contactFields_applied_on_ok (st : ServerState) (pid : JSNum)
    (u : BookingUpdate) (st' : ServerState) (b2 : Booking)
    (h : updateBooking st pid u = (st', .ok b2)) :
    (∀ s, u.name = some s → b2.name = s) ∧
    (∀ s, u.email = some s → b2.email = s) ∧
    (∀ s, u.phone = some s → b2.phone = s) ∧
    ∃ idx bk, findIdxElem (fun b => (JSNum.num b.id).eq pid) st.bookings = some (idx, bk) ∧
      st'.bookings = st.bookings.set idx b2 := by
  rcases hfi : findIdxElem (fun b => (JSNum.num b.id).eq pid) st.bookings with _ | ⟨idx, bk⟩
  · simp only [updateBooking, hfi] at h
    exact absurd (congrArg Prod.snd h) (by simp)
  · rcases hus : u.seats with _ | sv
    · simp only [updateBooking, hfi, hus] at h
      injection h with h1 h2
      injection h2 with h3
      subst h3
      refine ⟨fun s hs => applyContactFields_name _ _ _ hs,
        fun s hs => applyContactFields_email _ _ _ hs,
        fun s hs => applyContactFields_phone _ _ _ hs,
        idx, bk, hfi, ?_⟩
      rw [← h1]
    · rcases hfe : st.events.find? (fun e => (JSNum.num e.id).eq bk.eventId) with _ | ev
      · simp only [updateBooking, hfi, hus, hfe] at h
        exact absurd (congrArg Prod.snd h) (by simp)
      · cases hgt : ((sumSeats (st.bookings.filter
            (fun b => b.eventId.eq bk.eventId && !(JSNum.num b.id).eq pid))).add
            sv.toNum).gt ev.capacity with
        | true =>
          simp only [updateBooking, hfi, hus, hfe, hgt, if_true] at h
          exact absurd (congrArg Prod.snd h) (by simp)
        | false =>
          simp only [updateBooking, hfi, hus, hfe, hgt, Bool.false_eq_true, if_false] at h
          injection h with h1 h2
          injection h2 with h3
          subst h3
          refine ⟨fun s hs => applyContactFields_name _ _ _ hs,
            fun s hs => applyContactFields_email _ _ _ hs,
            fun s hs => applyContactFields_phone _ _ _ hs,
            idx, bk, hfi, ?_⟩
          rw [← h1]

/-- Witness for the amended C5: a successful update of booking 1 applies the
supplied name, email and phone verbatim. -/
theorem contactFields_applied_on_ok_witness :
    (∀ s, (some "Bob" : Option String) = some s →
      (applyContactFields (seedBooking "") ⟨none, some "Bob", some "bob@example.com",
        some "000"⟩).name = s) ∧
    (∀ s, (some "bob@example.com" : Option String) = some s →
      (applyContactFields (seedBooking "") ⟨none, some "Bob", some "bob@example.com",
        some "000"⟩).email = s) ∧
    (∀ s, (some "000" : Option String) = some s →
      (applyContactFields (seedBooking "") ⟨none, some "Bob", some "bob@example.com",
        some "000"⟩).phone = s) ∧
    ∃ idx bk, findIdxElem (fun b => (JSNum.num b.id).eq (.num 1))
        (seedState "").bookings = some (idx, bk) ∧
      ({ (seedState "") with
          bookings := (seedState "").bookings.set 0
            (applyContactFields (seedBooking "")
              ⟨none, some "Bob", some "bob@example.com", some "000"⟩) } :
        ServerState).bookings
        = (seedState "").bookings.set idx
            (applyContactFields (seedBooking "")
              ⟨none, some "Bob", some "bob@example.com", some "000"⟩) := by
  have h := contactFields_applied_on_ok (seedState "") (.num 1)
    ⟨none, some "Bob", some "bob@example.com", some "000"⟩
    ({ (seedState "") with
        bookings := (seedState "").bookings.set 0
          (applyContactFields (seedBooking "")
            ⟨none, some "Bob", some "bob@example.com", some "000"⟩) })
    (applyContactFields (seedBooking "") ⟨none, some "Bob", some "bob@example.com", some "000"⟩)
    rfl
  exact h

/-! ### Claim C7 -/

/-- Every element of a nonempty list is at most the running `foldl max`. -/
theorem le_foldl_max (h : Int) (t : List Int) : ∀ i ∈ h :: t, i ≤ t.foldl max h := by
  induction t generalizing h with
  | nil =>
    intro i hi
    simp only [List.mem_singleton] at hi
    simp [hi]
  | cons x xs ih =>
    intro i hi
    simp only [List.foldl]
    rcases List.mem_cons.mp hi with rfl | hi'
    · exact le_trans (le_max_left i x) (ih (max i x) _ (List.mem_cons_self _ _))
    · rcases List.mem_cons.mp hi' with rfl | hi''
      · exact le_trans (le_max_right h i) (ih (max h i) _ (List.mem_cons_self _ _))
      · exact ih (max h x) i (List.mem_cons_of_mem _ hi'')

/-- `foldl max` is bounded by any common upper bound. -/
theorem foldl_max_le (h : Int) (t : List Int) (c : Int)
    (hb : ∀ i ∈ h :: t, i ≤ c) : t.foldl max h ≤ c := by
  induction t generalizing h with
  | nil => exact hb h (List.mem_cons_self _ _)
  | cons x xs ih =>
    simp only [List.foldl]
    refine ih (max h x) ?_
    intro i hi
    rcases List.mem_cons.mp hi with rfl | hi'
    · exact max_le (hb h (List.mem_cons_self _ _))
        (hb x (List.mem_cons_of_mem _ (List.mem_cons_self _ _)))
    · exact hb i (List.mem_cons_of_mem _ (List.mem_cons_of_mem _ hi'))

/-- C7 counterexample: start from the seed state (event ids `[1]`), create
two events (ids 2, 3), delete event 2 (ids `[1, 3]`), then delete the
highest-id record (3, leaving ids `[1]`) and create a new event: the new
event gets id 2, NOT the freed id 3 — so "deleting the highest-id record
and then creating a new one reuses that freed id" fails when there is a gap
below the maximum. -/
theorem nextId_reuse_counterexample :
    ((createEvent (createEvent (seedState "")
        ⟨some "E", none, some "d", some ⟨true, .num 10⟩, none⟩).1
        ⟨some "E", none, some "d", some ⟨true, .num 10⟩, none⟩).1.events.map Event.id
      = [1, 2, 3]) ∧
    ((deleteEvent (createEvent (createEvent (seedState "")
        ⟨some "E", none, some "d", some ⟨true, .num 10⟩, none⟩).1
        ⟨some "E", none, some "d", some ⟨true, .num 10⟩, none⟩).1 (.num 2)).1.events.map
        Event.id = [1, 3]) ∧
    ((deleteEvent (deleteEvent (createEvent (createEvent (seedState "")
        ⟨some "E", none, some "d", some ⟨true, .num 10⟩, none⟩).1
        ⟨some "E", none, some "d", some ⟨true, .num 10⟩, none⟩).1 (.num 2)).1
        (.num 3)).1.events.map Event.id = [1]) ∧
    ((createEvent (deleteEvent (deleteEvent (createEvent (createEvent (seedState "")
        ⟨some "E", none, some "d", some ⟨true, .num 10⟩, none⟩).1
        ⟨some "E", none, some "d", some ⟨true, .num 10⟩, none⟩).1 (.num 2)).1
        (.num 3)).1 ⟨some "E", none, some "d", some ⟨true, .num 10⟩, none⟩).2
      = .created { id := 2, title := "E", description := "", date := "d",
                   capacity := .num 10, location := "" }) ∧
    (2 : Int) ≠ 3 := by
  refine ⟨by decide, by decide, by decide, by decide, by decide⟩

/-- C7 (amended): `nextId` returns (max existing id) + 1, or 1 on the empty
collection, so every successful event or booking create returns an id
strictly greater than every id present at call time and never colliding with
a stored id; deleting the highest-id record and then creating reuses the
freed id exactly when the remaining maximum is one less than it (in general
the new id is max(remaining) + 1, which may differ from the freed id). -/
theorem nextId_spec (ids : List Int) (st : ServerState) (body : EventInput)
    (bbody : BookingInput) (now : String) :
    (∀ i ∈ ids, i < nextId ids) ∧
    nextId ids ∉ ids ∧
    nextId [] = 1 ∧
    (∀ m : Int, (m - 1) ∈ ids → (∀ i ∈ ids, i ≤ m - 1) → nextId ids = m) ∧
    (∀ e', (createEvent st body).2 = .created e' →
      e'.id = nextId (st.events.map Event.id) ∧ ∀ ev ∈ st.events, ev.id < e'.id) ∧
    (∀ b', (createBooking st bbody now).2 = .created b' →
      b'.id = nextId (st.bookings.map Booking.id) ∧ ∀ b ∈ st.bookings, b.id < b'.id) := by
  have hlt : ∀ (l : List Int), ∀ i ∈ l, i < nextId l := by
    intro l i hi
    match l with
    | h :: t =>
      simp only [nextId]
      have := le_foldl_max h t i hi
      omega
  refine ⟨hlt ids, fun hmem => lt_irrefl _ (hlt ids _ hmem), rfl, ?_, ?_, ?_⟩
  · intro m hmem hub
    match ids with
    | h :: t =>
      simp only [nextId]
      have h1 := le_foldl_max h t (m - 1) hmem
      have h2 := foldl_max_le h t (m - 1) hub
      omega
  · intro e' h
    cases hval : (!strTruthy body.title || !strTruthy body.date
        || !optTruthy body.capacity) with
    | true =>
      simp only [createEvent, hval, if_true] at h
      cases h
    | false =>
      simp only [createEvent, hval, Bool.false_eq_true, if_false] at h
      injection h with h'
      subst h'
      exact ⟨rfl, fun ev hev => hlt _ _ (List.mem_map_of_mem Event.id hev)⟩
  · intro b' h
    cases hval : (!optTruthy bbody.eventId || !strTruthy bbody.name
        || !strTruthy bbody.email || !optTruthy bbody.seats) with
    | true =>
      simp only [createBooking, hval, if_true] at h
      cases h
    | false =>
      rcases hfind : st.events.find? (fun e => (JSNum.num e.id).eq (numOf bbody.eventId))
          with _ | ev
      · simp only [createBooking, hval, Bool.false_eq_true, if_false, hfind] at h
        cases h
      · cases hgt : ((sumSeats (st.bookings.filter
            (fun b => b.eventId.eq (numOf bbody.eventId)))).add
            (numOf bbody.seats)).gt ev.capacity with
        | true =>
          simp only [createBooking, hval, Bool.false_eq_true, if_false, hfind, hgt,
            if_true] at h
          cases h
        | false =>
          simp only [createBooking, hval, Bool.false_eq_true, if_false, hfind, hgt] at h
          injection h with h'
          subst h'
          exact ⟨rfl, fun b hb => hlt _ _ (List.mem_map_of_mem Booking.id hb)⟩

/-- Witness for the amended C7: on the seed state's id lists and a concrete
create, the bounds hold: creating an event in the seed state returns id 2,
greater than the only existing id 1; and after leaving `[1]`, the
reuse-condition applies with m = 2. -/
theorem nextId_spec_witness :
    (∀ i ∈ [(1 : Int)], i < nextId [1]) ∧
    nextId [(1 : Int)] ∉ [(1 : Int)] ∧
    nextId [] = 1 ∧
    (∀ m : Int, (m - 1) ∈ [(1 : Int)] → (∀ i ∈ [(1 : Int)], i ≤ m - 1) →
      nextId [(1 : Int)] = m) ∧
    (∀ e', (createEvent (seedState "")
        ⟨some "E", none, some "d", some ⟨true, .num 10⟩, none⟩).2 = .created e' →
      e'.id = nextId ((seedState "").events.map Event.id) ∧
      ∀ ev ∈ (seedState "").events, ev.id < e'.id) ∧
    (∀ b', (createBooking (seedState "")
        ⟨some ⟨true, .num 1⟩, some "Bob", some "bob@example.com", none,
          some ⟨true, .num 2⟩⟩ "t").2 = .created b' →
      b'.id = nextId ((seedState "").bookings.map Booking.id) ∧
      ∀ b ∈ (seedState "").bookings, b.id < b'.id) :=
  nextId_spec [(1 : Int)] (seedState "")
    ⟨some "E", none, some "d", some ⟨true, .num 10⟩, none⟩
    ⟨some ⟨true, .num 1⟩, some "Bob", some "bob@example.com", none, some ⟨true, .num 2⟩⟩ "t"

/-! ### Claim C9 -/

/-- C9 fails on the code: a create with `seats: -5` (truthy, numeric) is
accepted — the capacity check `1 + (-5) > 100` is false — and stores a
negative seats value; a create with truthy non-numeric seats stores `NaN`.
The stored-seats-positive-integer constraint of the data model is not
enforced anywhere. -/
theorem storedSeats_not_positive :
    (createBooking (seedState "") ⟨some ⟨true, .num 1⟩, some "Bob", some "bob@example.com",
        none, some ⟨true, .num (-5)⟩⟩ "t").2
      = .created { id := 2, eventId := .num 1, name := "Bob", email := "bob@example.com",
                   phone := "", seats := .num (-5), createdAt := "t" } ∧
    (createBooking (seedState "") ⟨some ⟨true, .num 1⟩, some "Bob", some "bob@example.com",
        none, some ⟨true, .nan⟩⟩ "t").2
      = .created { id := 2, eventId := .num 1, name := "Bob", email := "bob@example.com",
                   phone := "", seats := .nan, createdAt := "t" } := by
  refine ⟨by decide, by decide⟩

/-! ### Claim C1: lemmas -/

theorem JSNum.add_zero_right (x : JSNum) : x.add (.num 0) = x := by
  cases x <;> simp [JSNum.add]

theorem JSNum.add_eq_num (x y : JSNum) (n : Int) (h : x.add y = .num n) :
    ∃ a b : Int, x = .num a ∧ y = .num b ∧ a + b = n := by
  cases x <;> cases y <;> simp [JSNum.add] at h
  exact ⟨_, _, rfl, rfl, h⟩

theorem bookedSeats_def (bs : List Booking) (eid : Int) :
    bookedSeats bs eid = sumSeats (bs.filter (fun b => b.eventId.eq (.num eid))) := rfl

theorem bookedSeats_append (xs ys : List Booking) (eid : Int) :
    bookedSeats (xs ++ ys) eid = (bookedSeats xs eid).add (bookedSeats ys eid) := by
  unfold bookedSeats
  rw [List.filter_append, sumSeats_append]

theorem bookedSeats_cons (b : Booking) (bs : List Booking) (eid : Int) :
    bookedSeats (b :: bs) eid =
      if b.eventId.eq (.num eid) = true then b.seats.add (bookedSeats bs eid)
      else bookedSeats bs eid := by
  unfold bookedSeats
  by_cases h : b.eventId.eq (.num eid) = true
  · simp [List.filter_cons, h, sumSeats_cons]
  · simp [List.filter_cons, h]

theorem bookedSeats_nil (eid : Int) : bookedSeats [] eid = .num 0 := rfl

theorem capacityInvariant_iff (st : ServerState) :
    capacityInvariant st = true ↔
      ∀ e ∈ st.events, (bookedSeats st.bookings e.id).le e.capacity = true := by
  unfold capacityInvariant
  rw [List.all_eq_true]

/-- In a booking list with duplicate-free ids, the "other bookings" filter of
the seats-update handler keeps exactly the event's bookings around the one
being updated. -/
theorem filterOther_eq (l1 l2 : List Booking) (bk : Booking) (eidv : JSNum)
    (hnb : ((l1 ++ bk :: l2).map Booking.id).Nodup) :
    (l1 ++ bk :: l2).filter
        (fun b => b.eventId.eq eidv && !(JSNum.num b.id).eq (.num bk.id))
      = l1.filter (fun b => b.eventId.eq eidv)
        ++ l2.filter (fun b => b.eventId.eq eidv) := by
  rw [List.map_append, List.map_cons, List.nodup_append] at hnb
  obtain ⟨hn1, hn2, hdisj⟩ := hnb
  have hid1 : ∀ x ∈ l1, x.id ≠ bk.id := by
    intro x hx hcontra
    exact hdisj (List.mem_map_of_mem Booking.id hx)
      (hcontra ▸ List.mem_cons_self _ _)
  have hid2 : ∀ x ∈ l2, x.id ≠ bk.id := by
    intro x hx hcontra
    exact (List.nodup_cons.mp hn2).1 (hcontra ▸ List.mem_map_of_mem Booking.id hx)
  rw [List.filter_append, List.filter_cons]
  have hbk : (bk.eventId.eq eidv && !(JSNum.num bk.id).eq (.num bk.id)) = false := by
    simp [JSNum.eq]
  rw [hbk]
  simp only [Bool.false_eq_true, if_false]
  have hc1 : ∀ x ∈ l1, (x.eventId.eq eidv && !(JSNum.num x.id).eq (.num bk.id))
      = x.eventId.eq eidv := by
    intro x hx
    have hne := hid1 x hx
    simp [JSNum.eq, hne]
  have hc2 : ∀ x ∈ l2, (x.eventId.eq eidv && !(JSNum.num x.id).eq (.num bk.id))
      = x.eventId.eq eidv := by
    intro x hx
    have hne := hid2 x hx
    simp [JSNum.eq, hne]
  rw [List.filter_congr hc1, List.filter_congr hc2]

/-- C1 (amended): assuming sequential execution, duplicate-free ids, and that
any supplied `seats` value coerces to an actual number (not `NaN`), every
booking create and every booking update preserves the invariant that each
event's booked-seat sum is a number at most the event's capacity.  (As
stated the claim fails: a truthy non-numeric seats input bypasses the
capacity check and breaks the bound — see the counterexample.) -/
theorem capacityInvariant_preserved (st : ServerState) (body : BookingInput)
    (now : String) (pid : JSNum) (u : BookingUpdate)
    (hinv : capacityInvariant st = true)
    (hne : (st.events.map Event.id).Nodup)
    (hnb : (st.bookings.map Booking.id).Nodup)
    (hcseats : ∀ v, body.seats = some v → v.toNum ≠ .nan)
    (huseats : ∀ v, u.seats = some v → v.toNum ≠ .nan) :
    capacityInvariant (createBooking st body now).1 = true ∧
    capacityInvariant (updateBooking st pid u).1 = true := by
  rw [capacityInvariant_iff] at hinv
  constructor
  · cases hval : (!optTruthy body.eventId || !strTruthy body.name
        || !strTruthy body.email || !optTruthy body.seats) with
    | true =>
      simp only [createBooking, hval, if_true]
      rw [capacityInvariant_iff]
      exact hinv
    | false =>
      obtain ⟨h1, h2, h3, h4⟩ : optTruthy body.eventId = true ∧ strTruthy body.name = true ∧
          strTruthy body.email = true ∧ optTruthy body.seats = true := by
        simpa [Bool.or_eq_false_iff, Bool.not_eq_false', and_assoc] using hval
      rcases hfind : st.events.find? (fun e => (JSNum.num e.id).eq (numOf body.eventId))
          with _ | ev
      · simp only [createBooking, hval, Bool.false_eq_true, if_false, hfind]
        rw [capacityInvariant_iff]
        exact hinv
      · cases hgt : ((sumSeats (st.bookings.filter
            (fun b => b.eventId.eq (numOf body.eventId)))).add
            (numOf body.seats)).gt ev.capacity with
        | true =>
          simp only [createBooking, hval, Bool.false_eq_true, if_false, hfind, hgt, if_true]
          rw [capacityInvariant_iff]
          exact hinv
        | false =>
          rcases hbs : body.seats with _ | sv
          · rw [hbs] at h4
            simp [optTruthy] at h4
          obtain ⟨k, hk⟩ : ∃ k, numOf body.seats = .num k := by
            rw [hbs, numOf_some]
            cases hsv : sv.toNum with
            | num k => exact ⟨k, rfl⟩
            | nan => exact absurd hsv (hcseats sv hbs)
          have heid : numOf body.eventId = .num ev.id := by
            have hp := List.find?_some hfind
            obtain ⟨a, ha1, ha2⟩ := (JSNum.eq_true_iff _ _).mp hp
            cases ha1
            exact ha2
          have hevmem : ev ∈ st.events := List.mem_of_find?_eq_some hfind
          simp only [createBooking, hval, Bool.false_eq_true, if_false, hfind, hgt]
          rw [heid, hk] at hgt
          rw [← bookedSeats_def] at hgt
          rw [capacityInvariant_iff]
          intro e' he'
          simp only [bookedSeats_append, bookedSeats_cons, bookedSeats_nil,
            JSNum.add_zero_right, heid, hk]
          by_cases hcase : ev.id = e'.id
          · have he'ev : e' = ev :=
              List.inj_on_of_nodup_map hne he' hevmem hcase.symm
            subst he'ev
            have hcond : (JSNum.num e'.id).eq (.num e'.id) = true := by
              simp [JSNum.eq]
            rw [if_pos hcond]
            have hold := hinv e' hevmem
            obtain ⟨s, c, hs, hc, hsc⟩ := (JSNum.le_true_iff _ _).mp hold
            rw [hs, hc] at hgt ⊢
            simp only [JSNum.add, JSNum.gt, decide_eq_false_iff_not, not_lt] at hgt
            simp only [JSNum.add, JSNum.le, decide_eq_true_eq]
            omega
          · have hcond : (JSNum.num ev.id).eq (.num e'.id) = false := by
              simp [JSNum.eq, hcase]
            rw [if_neg (by rw [hcond]; exact Bool.false_ne_true), JSNum.add_zero_right]
            exact hinv e' he'
  · rcases hfi : findIdxElem (fun b => (JSNum.num b.id).eq pid) st.bookings with _ | ⟨idx, bk⟩
    · simp only [updateBooking, hfi]
      rw [capacityInvariant_iff]
      exact hinv
    · obtain ⟨l1, l2, hl, hlen, hall, hp⟩ := findIdxElem_spec _ _ _ _ hfi
      have hpid : pid = .num bk.id := by
        obtain ⟨a, ha1, ha2⟩ := (JSNum.eq_true_iff _ _).mp hp
        cases ha1
        exact ha2
      rcases hus : u.seats with _ | sv
      · simp only [updateBooking, hfi, hus]
        rw [capacityInvariant_iff]
        intro e' he'
        show (bookedSeats (st.bookings.set idx (applyContactFields bk u)) e'.id).le
          e'.capacity = true
        rw [hl, ← hlen, set_append_cons]
        have hsame : bookedSeats (l1 ++ applyContactFields bk u :: l2) e'.id
            = bookedSeats (l1 ++ bk :: l2) e'.id := by
          rw [bookedSeats_append, bookedSeats_append, bookedSeats_cons, bookedSeats_cons,
            applyContactFields_eventId, applyContactFields_seats]
        rw [hsame, ← hl]
        exact hinv e' he'
      · rcases hfe : st.events.find? (fun e => (JSNum.num e.id).eq bk.eventId) with _ | ev
        · simp only [updateBooking, hfi, hus, hfe]
          rw [capacityInvariant_iff]
          exact hinv
        · cases hgt : ((sumSeats (st.bookings.filter
              (fun b => b.eventId.eq bk.eventId && !(JSNum.num b.id).eq pid))).add
              sv.toNum).gt ev.capacity with
          | true =>
            simp only [updateBooking, hfi, hus, hfe, hgt, if_true]
            rw [capacityInvariant_iff]
            exact hinv
          | false =>
            obtain ⟨k, hk⟩ : ∃ k, sv.toNum = .num k := by
              cases hsv : sv.toNum with
              | num k => exact ⟨k, rfl⟩
              | nan => exact absurd hsv (huseats sv hus)
            have hbkev : bk.eventId = .num ev.id := by
              have hpe := List.find?_some hfe
              obtain ⟨a, ha1, ha2⟩ := (JSNum.eq_true_iff _ _).mp hpe
              cases ha1
              exact ha2
            have hevmem : ev ∈ st.events := List.mem_of_find?_eq_some hfe
            have hother : st.bookings.filter
                (fun b => b.eventId.eq bk.eventId && !(JSNum.num b.id).eq pid)
                = l1.filter (fun b => b.eventId.eq bk.eventId)
                  ++ l2.filter (fun b => b.eventId.eq bk.eventId) := by
              rw [hpid, hl]
              exact filterOther_eq l1 l2 bk bk.eventId (hl ▸ hnb)
            have hcond : bk.eventId.eq (.num ev.id) = true := by
              rw [hbkev]
              simp [JSNum.eq]
            simp only [updateBooking, hfi, hus, hfe, hgt, Bool.false_eq_true, if_false]
            rw [hother, sumSeats_append, hk, hbkev, ← bookedSeats_def,
              ← bookedSeats_def] at hgt
            rw [capacityInvariant_iff]
            intro e' he'
            show (bookedSeats (st.bookings.set idx
                (applyContactFields { bk with seats := sv.toNum } u)) e'.id).le
              e'.capacity = true
            rw [hl, ← hlen, set_append_cons, bookedSeats_append, bookedSeats_cons]
            rw [applyContactFields_eventId, applyContactFields_seats]
            have hold := hinv e' he'
            rw [hl, bookedSeats_append, bookedSeats_cons] at hold
            by_cases hcase : ev.id = e'.id
            · have he'ev : e' = ev :=
                List.inj_on_of_nodup_map hne he' hevmem hcase.symm
              subst he'ev
              rw [if_pos hcond] at hold ⊢
              obtain ⟨t, c, htot, hcap, htc⟩ := (JSNum.le_true_iff _ _).mp hold
              obtain ⟨s1, r, hs1, hr, hsr⟩ := JSNum.add_eq_num _ _ _ htot
              obtain ⟨s0, s2, hs0, hs2, hsr2⟩ := JSNum.add_eq_num _ _ _ hr
              rw [hs1, hs2, hcap] at hgt
              simp only [JSNum.add, JSNum.gt, decide_eq_false_iff_not, not_lt] at hgt
              rw [hk, hs1, hs2, hcap]
              simp only [JSNum.add, JSNum.le, decide_eq_true_eq]
              omega
            · have hcond' : bk.eventId.eq (.num e'.id) = false := by
                rw [hbkev]
                simp [JSNum.eq, hcase]
              rw [if_neg (by rw [hcond']; exact Bool.false_ne_true)] at hold ⊢
              exact hold

/-- C1 counterexample: in the seed state the invariant holds, a booking
create with truthy non-numeric seats (`"abc"`, coercing to `NaN`) succeeds,
and afterwards the invariant is false: the booked-seat sum for event 1 is
`NaN`, which is not at most the capacity.  So neither "at every point in
time" nor "every booking creation preserves this bound" holds as stated. -/
theorem capacityInvariant_violated_by_nan :
    capacityInvariant (seedState "") = true ∧
    (createBooking (seedState "") ⟨some ⟨true, .num 1⟩, some "Bob", some "bob@example.com",
        none, some ⟨true, .nan⟩⟩ "t").2
      = .created { id := 2, eventId := .num 1, name := "Bob", email := "bob@example.com",
                   phone := "", seats := .nan, createdAt := "t" } ∧
    capacityInvariant (createBooking (seedState "") ⟨some ⟨true, .num 1⟩, some "Bob",
        some "bob@example.com", none, some ⟨true, .nan⟩⟩ "t").1 = false := by
  refine ⟨by decide, by decide, by decide⟩

/-- Witness for the amended C1: from the seed state (where the invariant
holds and ids are unique), a create of 3 seats and an update of booking 1 to
2 seats both preserve the invariant. -/
theorem capacityInvariant_preserved_witness :
    capacityInvariant (createBooking (seedState "") ⟨some ⟨true, .num 1⟩, some "Bob",
      some "bob@example.com", none, some ⟨true, .num 3⟩⟩ "t").1 = true ∧
    capacityInvariant (updateBooking (seedState "") (.num 1)
      ⟨some ⟨true, .num 2⟩, none, none, none⟩).1 = true :=
  capacityInvariant_preserved (seedState "")
    ⟨some ⟨true, .num 1⟩, some "Bob", some "bob@example.com", none, some ⟨true, .num 3⟩⟩
    "t" (.num 1) ⟨some ⟨true, .num 2⟩, none, none, none⟩
    (by decide) (by decide) (by decide)
    (fun v hv => by cases hv; exact fun hc => by cases hc)
    (fun v hv => by cases hv; exact fun hc => by cases hc)

end Synergia
